import Mathlib

/-!
Verification development for the rexwa WhatsApp userbot repository.

The subsystems under scrutiny are:
* the in-memory store (`store.js`, class `InMemoryStore`): an event-driven
  cache of contacts, chats, messages, presences, group metadata and call
  offers with whole-state snapshot save/load;
* the connection manager (`Core/bot.js`, class `HyperWaBot`):
  `handleConnectionUpdate` / `shutdown`;
* the Mongo-backed auth-state providers (`useMongoAuthState` variants) with
  debounced credential persistence.

Modelling conventions:
* JavaScript objects are modelled as association lists `List (String × Json)`
  over an inductive `Json` type of acyclic JSON-serializable values
  (`undefined`, functions and reference cycles are not representable, which
  matches what survives `JSON.stringify`).
* Record identifiers (WhatsApp jids and message ids) are modelled as
  strings; JavaScript coerces every object key to a string and all ids in
  this protocol are strings.  The JS truthiness guard `!x` on an id
  corresponds to the id being absent, non-string, or the empty string.
* Mutation of `this` is modelled by explicit state passing: each method of
  `InMemoryStore` becomes a function `Store → ... → Store`.
-/

set_option autoImplicit false

/-- JSON-serializable JavaScript values (acyclic). -/
inductive Json where
  | null
  | bool (b : Bool)
  | num (n : Int)
  | str (s : String)
  | arr (elems : List Json)
  | obj (fields : List (String × Json))
deriving Repr

/-- A JavaScript object: an association list of string-keyed fields. -/
abbrev Obj := List (String × Json)

/-- Lookup in a string-keyed association list (first occurrence wins,
as in a JS object, which cannot hold duplicate keys). -/
def kvGet {α : Type} (m : List (String × α)) (k : String) : Option α :=
  m.lookup k

/-- The JS assignment `m[k] = v`: replace the binding in place when the key
is present, append it otherwise. -/
def kvSet {α : Type} (m : List (String × α)) (k : String) (v : α) :
    List (String × α) :=
  if (kvGet m k).isSome then
    m.map (fun p => if p.1 = k then (k, v) else p)
  else
    m ++ [(k, v)]

/-- The JS statement `delete m[k]` (a no-op when the key is absent). -/
def kvDel {α : Type} (m : List (String × α)) (k : String) :
    List (String × α) :=
  m.filter (fun p => p.1 ≠ k)

/-- The JS object spread `{...a, ...b}` restricted to logical content:
fields of `b` override fields of `a`, fields only in `a` survive. -/
def omerge (a b : Obj) : Obj :=
  a.filter (fun p => (kvGet b p.1).isNone) ++ b

/-- JS truthiness of a JSON value. -/
def jtruthy : Json → Bool
  | Json.null => false
  | Json.bool b => b
  | Json.num n => n ≠ 0
  | Json.str s => s ≠ ""
  | Json.arr _ => true
  | Json.obj _ => true

/-- Extract a truthy string-valued field, as used for every identifier
guard in `store.js` (`!contact.id`, `!presence?.participant`, ...). -/
def strField (o : Obj) (f : String) : Option String :=
  match kvGet o f with
  | some (Json.str s) => if s = "" then none else some s
  | _ => none

/-- The identifier of a contact / chat / group record (`record.id`). -/
def idOf (o : Obj) : Option String :=
  strField o "id"

/-- The field `message?.key?.[f]` of a message record. -/
def msgKeyField (m : Obj) (f : String) : Option String :=
  match kvGet m "key" with
  | some (Json.obj k) => strField k f
  | _ => none

/-- The chat id `message?.key?.remoteJid`. -/
def msgChatId (m : Obj) : Option String :=
  msgKeyField m "remoteJid"

/-- The message id `message?.key?.id`. -/
def msgIdOf (m : Obj) : Option String :=
  msgKeyField m "id"

/-- The value semantics of `JSON.parse(JSON.stringify(message))` on the
acyclic JSON values modelled here: structurally the identity.  The
reference-freshness (aliasing) aspect of the deep copy is modelled
separately with an explicit heap, below. -/
def deepCopyObj (o : Obj) : Obj := o

/-- The mutable state of `InMemoryStore` (`store.js`): one field per cache.
`messages` is the nested mapping chat id → message id → message. -/
structure Store where
  contacts : List (String × Obj) := []
  chats : List (String × Obj) := []
  messages : List (String × List (String × Obj)) := []
  presences : List (String × List (String × Obj)) := []
  groupMetadata : List (String × Obj) := []
  callOffer : List (String × Obj) := []
  stickerPacks : List (String × Obj) := []
  authState : Obj := []
  syncedHistory : List (String × Bool) := []
  poll_message : Json := Json.obj [("message", Json.arr [])]
deriving Repr

/-- The store constructed by `new InMemoryStore()`: everything empty. -/
def emptyStore : Store := {}

namespace Store

/-- `upsertContact(contact)`: guard `if (!contact.id) return;` then
`this.contacts[contact.id] = { ...this.contacts[contact.id], ...contact }`
(the spread of `undefined` is `{}`). -/
def upsertContact (st : Store) (c : Obj) : Store :=
  match idOf c with
  | none => st
  | some i =>
      { st with contacts := kvSet st.contacts i (omerge ((kvGet st.contacts i).getD []) c) }

/-- Loop body of `updateContact`: merge one patch only when
`contact.id && this.contacts[contact.id]` (updates never create). -/
def updateContactStep (s : Store) (c : Obj) : Store :=
  match idOf c with
  | some i =>
      match kvGet s.contacts i with
      | some old => { s with contacts := kvSet s.contacts i (omerge old c) }
      | none => s
  | none => s

/-- `updateContact(update)`: apply each patch of the list in order. -/
def updateContact (st : Store) (update : List Obj) : Store :=
  update.foldl updateContactStep st

/-- `deleteContact(ids)`: `delete this.contacts[id]` for each id. -/
def deleteContact (st : Store) (ids : List String) : Store :=
  { st with contacts := ids.foldl kvDel st.contacts }

/-- `upsertChat(chat)`: same shape as `upsertContact`. -/
def upsertChat (st : Store) (c : Obj) : Store :=
  match idOf c with
  | none => st
  | some i =>
      { st with chats := kvSet st.chats i (omerge ((kvGet st.chats i).getD []) c) }

/-- Loop body of `updateChat`: same shape as `updateContactStep`. -/
def updateChatStep (s : Store) (c : Obj) : Store :=
  match idOf c with
  | some i =>
      match kvGet s.chats i with
      | some old => { s with chats := kvSet s.chats i (omerge old c) }
      | none => s
  | none => s

/-- `updateChat(update)`: apply each patch of the list in order. -/
def updateChat (st : Store) (update : List Obj) : Store :=
  update.foldl updateChatStep st

/-- `deleteChat(ids)`: for each id, `delete this.chats[id]` and
`delete this.messages[id]` (cascade to the message sub-mapping). -/
def deleteChat (st : Store) (ids : List String) : Store :=
  ids.foldl
    (fun s i => { s with chats := kvDel s.chats i, messages := kvDel s.messages i })
    st

/-- `upsertMessage(message)`: guard `!chatId || !message?.key?.id`, ensure
the chat's sub-mapping exists, then
`this.messages[chatId][message.key.id] = JSON.parse(JSON.stringify(message))`
— a wholesale replacement by a deep copy, not a merge. -/
def upsertMessage (st : Store) (m : Obj) : Store :=
  match msgChatId m, msgIdOf m with
  | some cid, some mid =>
      let sub := (kvGet st.messages cid).getD []
      { st with messages := kvSet st.messages cid (kvSet sub mid (deepCopyObj m)) }
  | _, _ => st

/-- Loop body of `updateMessage`: merge a patch only when the target
message exists (`this.messages[chatId]?.[msgId]` truthy). -/
def updateMessageStep (s : Store) (u : Obj) : Store :=
  match msgChatId u, msgIdOf u with
  | some cid, some mid =>
      match kvGet s.messages cid with
      | some sub =>
          match kvGet sub mid with
          | some old =>
              { s with messages := kvSet s.messages cid (kvSet sub mid (omerge old u)) }
          | none => s
      | none => s
  | _, _ => s

/-- `updateMessage(updates)`: apply each patch of the list in order. -/
def updateMessage (st : Store) (updates : List Obj) : Store :=
  updates.foldl updateMessageStep st

/-- `deleteMessage(keys)`: each key is `{remoteJid, id}`; delete only when
the message exists. -/
def deleteMessage (st : Store) (keys : List Obj) : Store :=
  keys.foldl
    (fun s k =>
      match strField k "remoteJid", strField k "id" with
      | some cid, some mid =>
          match kvGet s.messages cid with
          | some sub =>
              if (kvGet sub mid).isSome then
                { s with messages := kvSet s.messages cid (kvDel sub mid) }
              else s
          | none => s
      | _, _ => s)
    st

/-- `loadMessage(jid, id)`: returns a deep copy of the cached message, or
`undefined`. -/
def loadMessage (st : Store) (jid mid : String) : Option Obj :=
  if jid = "" ∨ mid = "" then none
  else
    match kvGet st.messages jid with
    | some sub => (kvGet sub mid).map deepCopyObj
    | none => none

/-- `getMessages(jid)`: `Object.values(this.messages[jid])`, or `[]` when
the jid is falsy or has no sub-mapping. -/
def getMessages (st : Store) (jid : String) : List Obj :=
  if jid = "" then []
  else
    match kvGet st.messages jid with
    | some sub => sub.map Prod.snd
    | none => []

/-- `setPresence(chatId, presence)`: store the presence wholesale under
`(chatId, presence.participant)`. -/
def setPresence (st : Store) (chatId : String) (p : Obj) : Store :=
  if chatId = "" then st
  else
    match strField p "participant" with
    | none => st
    | some part =>
        let sub := (kvGet st.presences chatId).getD []
        { st with presences := kvSet st.presences chatId (kvSet sub part p) }

/-- `updatePresence(chatId, presence)`: merge into the existing presence
(spread of `undefined` is `{}`). -/
def updatePresence (st : Store) (chatId : String) (p : Obj) : Store :=
  if chatId = "" then st
  else
    match strField p "participant" with
    | none => st
    | some part =>
        let sub := (kvGet st.presences chatId).getD []
        let merged := omerge ((kvGet sub part).getD []) p
        { st with presences := kvSet st.presences chatId (kvSet sub part merged) }

/-- `setGroupMetadata(groupId, metadata)`: wholesale assignment. -/
def setGroupMetadata (st : Store) (gid : String) (md : Obj) : Store :=
  if gid = "" then st
  else { st with groupMetadata := kvSet st.groupMetadata gid md }

/-- `updateGroupMetadata(update)`: merge only into existing entries. -/
def updateGroupMetadata (st : Store) (update : List Obj) : Store :=
  update.foldl
    (fun s d =>
      match idOf d with
      | some i =>
          match kvGet s.groupMetadata i with
          | some old => { s with groupMetadata := kvSet s.groupMetadata i (omerge old d) }
          | none => s
      | none => s)
    st

/-- `setCallOffer(peerJid, offer)`. -/
def setCallOffer (st : Store) (jid : String) (o : Obj) : Store :=
  if jid = "" then st
  else { st with callOffer := kvSet st.callOffer jid o }

/-- `clearCallOffer(peerJid)`. -/
def clearCallOffer (st : Store) (jid : String) : Store :=
  if jid = "" then st
  else { st with callOffer := kvDel st.callOffer jid }

end Store

/-- The snapshot object built by `save()`: every cache plus a timestamp. -/
structure Snapshot where
  contacts : List (String × Obj)
  chats : List (String × Obj)
  messages : List (String × List (String × Obj))
  presences : List (String × List (String × Obj))
  groupMetadata : List (String × Obj)
  callOffer : List (String × Obj)
  stickerPacks : List (String × Obj)
  authState : Obj
  syncedHistory : List (String × Bool)
  poll_message : Json
  timestamp : Nat
deriving Repr

namespace Store

/-- `save()`: package the live caches (plus `Date.now()`) into a snapshot
object.  The caches are always objects, hence truthy. -/
def save (st : Store) (now : Nat) : Snapshot :=
  { contacts := st.contacts
    chats := st.chats
    messages := st.messages
    presences := st.presences
    groupMetadata := st.groupMetadata
    callOffer := st.callOffer
    stickerPacks := st.stickerPacks
    authState := st.authState
    syncedHistory := st.syncedHistory
    poll_message := st.poll_message
    timestamp := now }

/-- `load(state)`: `Object.assign(this, { contacts: state.contacts || {}, ... })`.
Applied to a snapshot produced by `save()` every field is present and
truthy, so the `||` defaults never trigger. -/
def load (sn : Snapshot) : Store :=
  { contacts := sn.contacts
    chats := sn.chats
    messages := sn.messages
    presences := sn.presences
    groupMetadata := sn.groupMetadata
    callOffer := sn.callOffer
    stickerPacks := sn.stickerPacks
    authState := sn.authState
    syncedHistory := sn.syncedHistory
    poll_message := sn.poll_message }

end Store

/-- One store mutation drawn from the event-translation surface of
`InMemoryStore` (the handlers installed by `bind`). -/
inductive StoreOp where
  | upsertContact (c : Obj)
  | updateContact (cs : List Obj)
  | deleteContact (ids : List String)
  | upsertChat (c : Obj)
  | updateChat (cs : List Obj)
  | deleteChat (ids : List String)
  | upsertMessage (m : Obj)
  | updateMessage (ms : List Obj)
  | deleteMessage (ks : List Obj)
  | setPresence (chatId : String) (p : Obj)
  | updatePresence (chatId : String) (p : Obj)
  | setGroupMetadata (gid : String) (md : Obj)
  | updateGroupMetadata (ds : List Obj)
  | setCallOffer (jid : String) (o : Obj)
  | clearCallOffer (jid : String)
deriving Repr

/-- Apply one operation to the store. -/
def applyOp (st : Store) : StoreOp → Store
  | StoreOp.upsertContact c => st.upsertContact c
  | StoreOp.updateContact cs => st.updateContact cs
  | StoreOp.deleteContact ids => st.deleteContact ids
  | StoreOp.upsertChat c => st.upsertChat c
  | StoreOp.updateChat cs => st.updateChat cs
  | StoreOp.deleteChat ids => st.deleteChat ids
  | StoreOp.upsertMessage m => st.upsertMessage m
  | StoreOp.updateMessage ms => st.updateMessage ms
  | StoreOp.deleteMessage ks => st.deleteMessage ks
  | StoreOp.setPresence cid p => st.setPresence cid p
  | StoreOp.updatePresence cid p => st.updatePresence cid p
  | StoreOp.setGroupMetadata gid md => st.setGroupMetadata gid md
  | StoreOp.updateGroupMetadata ds => st.updateGroupMetadata ds
  | StoreOp.setCallOffer jid o => st.setCallOffer jid o
  | StoreOp.clearCallOffer jid => st.clearCallOffer jid

/-- Apply a sequence of operations, oldest first. -/
def applyOps (st : Store) (ops : List StoreOp) : Store :=
  ops.foldl applyOp st

/-! ### Association-list lemmas -/

theorem kvGet_cons {α : Type} (k a : String) (v : α) (m : List (String × α)) :
    kvGet ((a, v) :: m) k = if k = a then some v else kvGet m k := by
  by_cases h : k = a
  · subst h
    simp [kvGet, List.lookup]
  · have hb : (k == a) = false := by
      simpa using h
    simp [kvGet, List.lookup, hb, h]

theorem kvGet_append {α : Type} (k : String) (l1 l2 : List (String × α)) :
    kvGet (l1 ++ l2) k =
      match kvGet l1 k with
      | some v => some v
      | none => kvGet l2 k := by
  induction l1 with
  | nil => simp [kvGet]
  | cons p t ih =>
      rcases p with ⟨a, v⟩
      by_cases h : k = a
      · simp [kvGet_cons, h]
      · simpa [kvGet_cons, h] using ih

theorem kvGet_map_replace_ne {α : Type} (k k' : String) (v : α) (m : List (String × α))
    (h : k' ≠ k) :
    kvGet (m.map (fun p => if p.1 = k then (k, v) else p)) k' = kvGet m k' := by
  induction m with
  | nil => simp
  | cons p t ih =>
      rcases p with ⟨a, w⟩
      by_cases ha : a = k
      · subst ha
        simp [kvGet_cons, h, ih]
      · by_cases hk : k' = a
        · simp [kvGet_cons, ha, hk]
        · simp [kvGet_cons, ha, hk, ih]

theorem kvGet_map_replace_self {α : Type} (k : String) (v : α) (m : List (String × α))
    (h : (kvGet m k).isSome) :
    kvGet (m.map (fun p => if p.1 = k then (k, v) else p)) k = some v := by
  induction m with
  | nil => simp [kvGet] at h
  | cons p t ih =>
      rcases p with ⟨a, w⟩
      by_cases ha : a = k
      · subst ha
        simp [kvGet_cons]
      · have hk : k ≠ a := fun hh => ha hh.symm
        rw [kvGet_cons k a w t, if_neg hk] at h
        simp [kvGet_cons, ha, hk, ih h]

theorem map_replace_of_none {α : Type} (k : String) (v : α) (m : List (String × α))
    (h : kvGet m k = none) :
    m.map (fun p => if p.1 = k then (k, v) else p) = m := by
  induction m with
  | nil => simp
  | cons p t ih =>
      rcases p with ⟨a, w⟩
      by_cases ha : a = k
      · subst ha
        simp [kvGet_cons] at h
      · rw [kvGet_cons, if_neg (fun hh => ha hh.symm)] at h
        simp [ha, ih h]

theorem kvSet_def_pos {α : Type} (k : String) (v : α) (m : List (String × α))
    (h : (kvGet m k).isSome) :
    kvSet m k v = m.map (fun p => if p.1 = k then (k, v) else p) := by
  simp only [kvSet, if_pos h]

theorem kvSet_def_neg {α : Type} (k : String) (v : α) (m : List (String × α))
    (h : ¬ (kvGet m k).isSome) :
    kvSet m k v = m ++ [(k, v)] := by
  simp only [kvSet, if_neg h]

theorem kvGet_kvSet_self {α : Type} (k : String) (v : α) (m : List (String × α)) :
    kvGet (kvSet m k v) k = some v := by
  by_cases h : (kvGet m k).isSome
  · rw [kvSet_def_pos k v m h]
    exact kvGet_map_replace_self k v m h
  · rw [kvSet_def_neg k v m h, kvGet_append]
    cases hm : kvGet m k with
    | some w => rw [hm] at h; simp at h
    | none => simp [kvGet_cons, kvGet]

theorem kvGet_kvSet_ne {α : Type} (k k' : String) (v : α) (m : List (String × α))
    (h : k' ≠ k) :
    kvGet (kvSet m k v) k' = kvGet m k' := by
  by_cases hs : (kvGet m k).isSome
  · rw [kvSet_def_pos k v m hs]
    exact kvGet_map_replace_ne k k' v m h
  · rw [kvSet_def_neg k v m hs, kvGet_append]
    cases hm : kvGet m k' with
    | some w => simp
    | none => simp [kvGet_cons, h, kvGet]

theorem kvSet_kvSet_self {α : Type} (k : String) (v w : α) (m : List (String × α)) :
    kvSet (kvSet m k v) k w = kvSet m k w := by
  have hsome : (kvGet (kvSet m k v) k).isSome := by
    rw [kvGet_kvSet_self]; rfl
  by_cases h : (kvGet m k).isSome
  · rw [kvSet_def_pos k v m h] at hsome ⊢
    rw [kvSet_def_pos k w _ hsome, kvSet_def_pos k w m h, List.map_map]
    apply List.map_congr_left
    intro p _
    by_cases hp : p.1 = k
    · simp [hp, Function.comp]
    · simp [hp, Function.comp]
  · have hnone : kvGet m k = none := by
      cases hm : kvGet m k with
      | some u => rw [hm] at h; simp at h
      | none => rfl
    rw [kvSet_def_neg k v m h] at hsome ⊢
    rw [kvSet_def_pos k w _ hsome, kvSet_def_neg k w m h]
    rw [List.map_append, map_replace_of_none k w m hnone]
    simp

theorem kvDel_cons {α : Type} (k a : String) (w : α) (t : List (String × α)) :
    kvDel ((a, w) :: t) k = if a = k then kvDel t k else (a, w) :: kvDel t k := by
  by_cases ha : a = k
  · simp [kvDel, ha]
  · simp [kvDel, ha]

theorem kvGet_kvDel_self {α : Type} (k : String) (m : List (String × α)) :
    kvGet (kvDel m k) k = none := by
  induction m with
  | nil => simp [kvDel, kvGet]
  | cons p t ih =>
      rcases p with ⟨a, w⟩
      rw [kvDel_cons]
      by_cases ha : a = k
      · rw [if_pos ha]; exact ih
      · have hka : k ≠ a := fun hh => ha hh.symm
        rw [if_neg ha, kvGet_cons, if_neg hka]
        exact ih

theorem kvGet_kvDel_ne {α : Type} (k k' : String) (m : List (String × α))
    (h : k' ≠ k) :
    kvGet (kvDel m k) k' = kvGet m k' := by
  induction m with
  | nil => simp [kvDel]
  | cons p t ih =>
      rcases p with ⟨a, w⟩
      rw [kvDel_cons]
      by_cases ha : a = k
      · subst ha
        rw [if_pos rfl, kvGet_cons, if_neg h]
        exact ih
      · rw [if_neg ha, kvGet_cons, kvGet_cons]
        by_cases hk : k' = a
        · rw [if_pos hk, if_pos hk]
        · rw [if_neg hk, if_neg hk]
          exact ih

theorem kvDel_of_none {α : Type} (k : String) (m : List (String × α))
    (h : kvGet m k = none) :
    kvDel m k = m := by
  induction m with
  | nil => simp [kvDel]
  | cons p t ih =>
      rcases p with ⟨a, w⟩
      by_cases ha : a = k
      · subst ha
        rw [kvGet_cons, if_pos rfl] at h
        cases h
      · have hka : k ≠ a := fun hh => ha hh.symm
        rw [kvGet_cons, if_neg hka] at h
        rw [kvDel_cons, if_neg ha, ih h]

theorem kvGet_isSome_of_mem {α : Type} (b : List (String × α)) (p : String × α)
    (hp : p ∈ b) : (kvGet b p.1).isSome := by
  induction b with
  | nil => cases hp
  | cons q t ih =>
      rcases q with ⟨a, w⟩
      by_cases hk : p.1 = a
      · simp [kvGet_cons, hk]
      · rcases List.mem_cons.mp hp with h | h
        · subst h; simp at hk
        · rw [kvGet_cons, if_neg hk]
          exact ih h

theorem kvGet_filter_none_of_some (a b : Obj) (k : String)
    (h : (kvGet b k).isSome) :
    kvGet (a.filter (fun p => (kvGet b p.1).isNone)) k = none := by
  induction a with
  | nil => simp [kvGet]
  | cons p t ih =>
      rcases p with ⟨x, w⟩
      rw [List.filter_cons]
      by_cases hf : (kvGet b x).isNone
      · have hx : k ≠ x := by
          intro hh
          subst hh
          cases hb : kvGet b k with
          | some u => rw [hb] at hf; simp at hf
          | none => rw [hb] at h; simp at h
        simpa [hf, kvGet_cons, hx] using ih
      · simpa [hf] using ih

theorem kvGet_omerge_some (a b : Obj) (k : String) (v : Json)
    (h : kvGet b k = some v) :
    kvGet (omerge a b) k = some v := by
  unfold omerge
  rw [kvGet_append, kvGet_filter_none_of_some a b k (by rw [h]; rfl)]
  simp [h]

theorem kvGet_omerge_none (a b : Obj) (k : String)
    (h : kvGet b k = none) :
    kvGet (omerge a b) k = kvGet a k := by
  unfold omerge
  rw [kvGet_append]
  have hfil : kvGet (a.filter (fun p => (kvGet b p.1).isNone)) k = kvGet a k := by
    induction a with
    | nil => simp
    | cons p t ih =>
        rcases p with ⟨x, w⟩
        rw [List.filter_cons]
        by_cases hx : k = x
        · subst hx
          have hf : (kvGet b k).isNone := by rw [h]; rfl
          simp [hf, kvGet_cons]
        · by_cases hf : (kvGet b x).isNone
          · simpa [hf, kvGet_cons, hx] using ih
          · simpa [hf, kvGet_cons, hx] using ih
  rw [hfil]
  cases ha : kvGet a k with
  | some w => simp
  | none => simp [h]

theorem omerge_omerge_self (a b : Obj) :
    omerge (omerge a b) b = omerge a b := by
  unfold omerge
  rw [List.filter_append, List.filter_filter]
  have h1 : (List.filter (fun p => ((kvGet b p.1).isNone && (kvGet b p.1).isNone)) a)
      = List.filter (fun p => (kvGet b p.1).isNone) a := by
    apply List.filter_congr
    intro p _
    cases (kvGet b p.1).isNone <;> rfl
  have h2 : List.filter (fun p => (kvGet b p.1).isNone) b = [] := by
    apply List.filter_eq_nil_iff.mpr
    intro p hp
    have hs := kvGet_isSome_of_mem b p hp
    cases hq : kvGet b p.1 with
    | some w => simp [hq]
    | none => rw [hq] at hs; simp at hs
  rw [h1, h2]
  simp

/-! ### Log-traced operations

`InMemoryStore` holds a pino logger.  For the claims about silent failure
the relevant operations are paired with the list of log lines they emit.
The bodies of `upsertContact` and `upsertChat` contain no logger call at
all; `upsertMessage` logs only from its `catch` block, which is unreachable
on the acyclic JSON values modelled here (`JSON.stringify` cannot throw on
them); `setPresence` warns on an invalid chat id or participant. -/

namespace Store

/-- `upsertContact` together with its (empty) log trace. -/
def upsertContactL (st : Store) (c : Obj) : Store × List String :=
  (st.upsertContact c, [])

/-- `upsertChat` together with its (empty) log trace. -/
def upsertChatL (st : Store) (c : Obj) : Store × List String :=
  (st.upsertChat c, [])

/-- `upsertMessage` together with its log trace (empty: the catch block
cannot fire on acyclic JSON values). -/
def upsertMessageL (st : Store) (m : Obj) : Store × List String :=
  (st.upsertMessage m, [])

/-- `setPresence` together with its log trace: the invalid-argument path
does emit a warning, showing the trace model is not vacuous. -/
def setPresenceL (st : Store) (chatId : String) (p : Obj) : Store × List String :=
  if chatId = "" ∨ strField p "participant" = none then
    (st, ["Presence set: invalid chatId or participant"])
  else
    (st.setPresence chatId p, [])

end Store

/-! ### Store lemmas -/

theorem deleteChat_chats_get (ids : List String) (st : Store) (i : String) :
    kvGet (st.deleteChat ids).chats i = if i ∈ ids then none else kvGet st.chats i := by
  induction ids generalizing st with
  | nil => simp [Store.deleteChat]
  | cons a t ih =>
      show kvGet (Store.deleteChat _ t).chats i = _
      rw [ih]
      by_cases hm : i ∈ t
      · simp [hm]
      · by_cases ha : i = a
        · subst ha
          simp [hm, kvGet_kvDel_self]
        · simp [hm, ha, kvGet_kvDel_ne _ _ _ ha]

theorem deleteChat_messages_get (ids : List String) (st : Store) (i : String) :
    kvGet (st.deleteChat ids).messages i = if i ∈ ids then none else kvGet st.messages i := by
  induction ids generalizing st with
  | nil => simp [Store.deleteChat]
  | cons a t ih =>
      show kvGet (Store.deleteChat _ t).messages i = _
      rw [ih]
      by_cases hm : i ∈ t
      · simp [hm]
      · by_cases ha : i = a
        · subst ha
          simp [hm, kvGet_kvDel_self]
        · simp [hm, ha, kvGet_kvDel_ne _ _ _ ha]

theorem getMessages_eq_nil_of_none (st : Store) (i : String)
    (h : kvGet st.messages i = none) :
    st.getMessages i = [] := by
  unfold Store.getMessages
  by_cases hi : i = ""
  · rw [if_pos hi]
  · rw [if_neg hi, h]

/-! ### C1 — snapshot round-trip -/

/-- C1: for every store state reachable by any sequence of
upsert/update/delete operations from the empty store, `save()` followed by
`load()` on the produced snapshot reproduces exactly the same logical
state — every cache (contacts, chats, messages, presences, group metadata,
call offers, sticker packs, auth state, synced history, poll messages) is
restored field-for-field to its last-written value. -/
theorem store_save_load_roundtrip (ops : List StoreOp) (now : Nat) :
    Store.load (Store.save (applyOps emptyStore ops) now) = applyOps emptyStore ops :=
  rfl

/-! ### C2 — chat deletion cascades; deleting a missing id is a no-op -/

/-- C2: `deleteChat` removes the chat entry and the entire message
sub-mapping of every deleted id, so `getMessages` on such an id returns the
empty sequence afterwards; and `deleteChat` on an id present neither in
`chats` nor in `messages` does not throw (it is a total function) and
leaves the whole store state unchanged. -/
theorem deleteChat_cascades_and_missing_id_noop :
    (∀ (st : Store) (ids : List String) (i : String), i ∈ ids →
        kvGet (st.deleteChat ids).chats i = none ∧
        kvGet (st.deleteChat ids).messages i = none ∧
        (st.deleteChat ids).getMessages i = []) ∧
    (∀ (st : Store) (i : String),
        kvGet st.chats i = none → kvGet st.messages i = none →
        st.deleteChat [i] = st) := by
  constructor
  · intro st ids i hmem
    have hc := deleteChat_chats_get ids st i
    have hm := deleteChat_messages_get ids st i
    rw [if_pos hmem] at hc hm
    exact ⟨hc, hm, getMessages_eq_nil_of_none _ _ hm⟩
  · intro st i hc hm
    show (⟨st.contacts, kvDel st.chats i, kvDel st.messages i, st.presences,
        st.groupMetadata, st.callOffer, st.stickerPacks, st.authState,
        st.syncedHistory, st.poll_message⟩ : Store) = st
    rw [kvDel_of_none i st.chats hc, kvDel_of_none i st.messages hm]

/-- Witness for C2 at concrete inputs: a store holding chat `"c1"` with one
message, and deletion of the absent id `"zz"`. -/
theorem deleteChat_cascades_and_missing_id_noop_witness :
    (((emptyStore.upsertChat [("id", Json.str "c1")]).upsertMessage
        [("key", Json.obj [("remoteJid", Json.str "c1"), ("id", Json.str "m1")]),
         ("text", Json.str "hi")]).deleteChat ["c1"]).getMessages "c1" = [] ∧
    emptyStore.deleteChat ["zz"] = emptyStore := by
  constructor
  · exact (deleteChat_cascades_and_missing_id_noop.1 _ ["c1"] "c1"
      (List.mem_singleton.mpr rfl)).2.2
  · exact deleteChat_cascades_and_missing_id_noop.2 emptyStore "zz" rfl rfl

/-! ### Structure-eta helpers -/

theorem store_eta_contacts (s : Store) (e : List (String × Obj)) (h : e = s.contacts) :
    ({ s with contacts := e } : Store) = s := by
  rw [h]

theorem store_eta_chats (s : Store) (e : List (String × Obj)) (h : e = s.chats) :
    ({ s with chats := e } : Store) = s := by
  rw [h]

theorem store_eta_messages (s : Store) (e : List (String × List (String × Obj)))
    (h : e = s.messages) :
    ({ s with messages := e } : Store) = s := by
  rw [h]

/-! ### Update is a no-op on absent targets -/

theorem updateContactStep_noop (st : Store) (c : Obj)
    (h : ∀ i, idOf c = some i → kvGet st.contacts i = none) :
    Store.updateContactStep st c = st := by
  unfold Store.updateContactStep
  cases hid : idOf c with
  | none => rfl
  | some i => simp [h i hid]

theorem updateContact_noop (st : Store) (cs : List Obj)
    (h : ∀ c ∈ cs, ∀ i, idOf c = some i → kvGet st.contacts i = none) :
    st.updateContact cs = st := by
  induction cs with
  | nil => rfl
  | cons c t ih =>
      have h1 : Store.updateContactStep st c = st :=
        updateContactStep_noop st c (fun i hi => h c (List.mem_cons_self c t) i hi)
      show Store.updateContact (Store.updateContactStep st c) t = st
      rw [h1]
      exact ih (fun c' hc' i hi => h c' (List.mem_cons_of_mem c hc') i hi)

theorem updateChatStep_noop (st : Store) (c : Obj)
    (h : ∀ i, idOf c = some i → kvGet st.chats i = none) :
    Store.updateChatStep st c = st := by
  unfold Store.updateChatStep
  cases hid : idOf c with
  | none => rfl
  | some i => simp [h i hid]

theorem updateChat_noop (st : Store) (cs : List Obj)
    (h : ∀ c ∈ cs, ∀ i, idOf c = some i → kvGet st.chats i = none) :
    st.updateChat cs = st := by
  induction cs with
  | nil => rfl
  | cons c t ih =>
      have h1 : Store.updateChatStep st c = st :=
        updateChatStep_noop st c (fun i hi => h c (List.mem_cons_self c t) i hi)
      show Store.updateChat (Store.updateChatStep st c) t = st
      rw [h1]
      exact ih (fun c' hc' i hi => h c' (List.mem_cons_of_mem c hc') i hi)

theorem updateMessageStep_noop (st : Store) (u : Obj)
    (h : ∀ cid mid, msgChatId u = some cid → msgIdOf u = some mid →
        kvGet ((kvGet st.messages cid).getD []) mid = none) :
    Store.updateMessageStep st u = st := by
  unfold Store.updateMessageStep
  cases hc : msgChatId u with
  | none => rfl
  | some cid =>
      cases hm : msgIdOf u with
      | none => rfl
      | some mid =>
          have hh := h cid mid hc hm
          cases hsub : kvGet st.messages cid with
          | none => simp [hsub]
          | some sub =>
              rw [hsub] at hh
              simp only [Option.getD_some] at hh
              simp [hsub, hh]

theorem updateMessage_noop (st : Store) (us : List Obj)
    (h : ∀ u ∈ us, ∀ cid mid, msgChatId u = some cid → msgIdOf u = some mid →
        kvGet ((kvGet st.messages cid).getD []) mid = none) :
    st.updateMessage us = st := by
  induction us with
  | nil => rfl
  | cons u t ih =>
      have h1 : Store.updateMessageStep st u = st :=
        updateMessageStep_noop st u (fun cid mid hc hm =>
          h u (List.mem_cons_self u t) cid mid hc hm)
      show Store.updateMessage (Store.updateMessageStep st u) t = st
      rw [h1]
      exact ih (fun u' hu' cid mid hc hm => h u' (List.mem_cons_of_mem u hu') cid mid hc hm)

/-! ### Upsert creates-or-merges -/

theorem upsertContact_get (st : Store) (c : Obj) (i : String)
    (hid : idOf c = some i) :
    kvGet (st.upsertContact c).contacts i
      = some (omerge ((kvGet st.contacts i).getD []) c) := by
  unfold Store.upsertContact
  rw [hid]
  exact kvGet_kvSet_self i _ st.contacts

theorem upsertChat_get (st : Store) (c : Obj) (i : String)
    (hid : idOf c = some i) :
    kvGet (st.upsertChat c).chats i
      = some (omerge ((kvGet st.chats i).getD []) c) := by
  unfold Store.upsertChat
  rw [hid]
  exact kvGet_kvSet_self i _ st.chats

theorem upsertMessage_get (st : Store) (m : Obj) (cid mid : String)
    (hc : msgChatId m = some cid) (hm : msgIdOf m = some mid) :
    kvGet ((kvGet (st.upsertMessage m).messages cid).getD []) mid = some m := by
  unfold Store.upsertMessage
  rw [hc, hm]
  simp only [kvGet_kvSet_self, Option.getD_some]
  rfl

/-! ### C3 — update never creates; upsert always creates-or-merges -/

/-- C3: applying `updateContact` / `updateChat` / `updateMessage` with
patches whose targets do not exist leaves the store state completely
unchanged (updates never create), while `upsertContact` / `upsertChat` /
`upsertMessage` with an identified record always leaves the record present:
contacts and chats as the per-field merge of the old record with the patch,
messages as the given record. -/
theorem update_never_creates_upsert_creates_or_merges :
    (∀ (st : Store) (cs : List Obj),
        (∀ c ∈ cs, ∀ i, idOf c = some i → kvGet st.contacts i = none) →
        st.updateContact cs = st) ∧
    (∀ (st : Store) (cs : List Obj),
        (∀ c ∈ cs, ∀ i, idOf c = some i → kvGet st.chats i = none) →
        st.updateChat cs = st) ∧
    (∀ (st : Store) (us : List Obj),
        (∀ u ∈ us, ∀ cid mid, msgChatId u = some cid → msgIdOf u = some mid →
            kvGet ((kvGet st.messages cid).getD []) mid = none) →
        st.updateMessage us = st) ∧
    (∀ (st : Store) (c : Obj) (i : String), idOf c = some i →
        kvGet (st.upsertContact c).contacts i
          = some (omerge ((kvGet st.contacts i).getD []) c)) ∧
    (∀ (st : Store) (c : Obj) (i : String), idOf c = some i →
        kvGet (st.upsertChat c).chats i
          = some (omerge ((kvGet st.chats i).getD []) c)) ∧
    (∀ (st : Store) (m : Obj) (cid mid : String),
        msgChatId m = some cid → msgIdOf m = some mid →
        kvGet ((kvGet (st.upsertMessage m).messages cid).getD []) mid = some m) :=
  ⟨updateContact_noop, updateChat_noop, updateMessage_noop,
   upsertContact_get, upsertChat_get, upsertMessage_get⟩

/-- Witness for C3 at concrete inputs: updating the empty store does not
create records; upserting into the empty store does. -/
theorem update_never_creates_upsert_creates_or_merges_witness :
    emptyStore.updateContact [[("id", Json.str "A"), ("name", Json.str "Alice")]]
      = emptyStore ∧
    emptyStore.updateChat [[("id", Json.str "c1")]] = emptyStore ∧
    emptyStore.updateMessage
      [[("key", Json.obj [("remoteJid", Json.str "c1"), ("id", Json.str "m1")])]]
      = emptyStore ∧
    kvGet (emptyStore.upsertContact
        [("id", Json.str "A"), ("name", Json.str "Alice")]).contacts "A"
      = some [("id", Json.str "A"), ("name", Json.str "Alice")] ∧
    kvGet (emptyStore.upsertChat [("id", Json.str "c1")]).chats "c1"
      = some [("id", Json.str "c1")] ∧
    kvGet ((kvGet (emptyStore.upsertMessage
        [("key", Json.obj [("remoteJid", Json.str "c1"), ("id", Json.str "m1")]),
         ("text", Json.str "hi")]).messages "c1").getD []) "m1"
      = some [("key", Json.obj [("remoteJid", Json.str "c1"), ("id", Json.str "m1")]),
              ("text", Json.str "hi")] := by
  refine ⟨?_, ?_, ?_, ?_, ?_, ?_⟩
  · exact update_never_creates_upsert_creates_or_merges.1 emptyStore _
      (fun c hc i hi => rfl)
  · exact update_never_creates_upsert_creates_or_merges.2.1 emptyStore _
      (fun c hc i hi => rfl)
  · exact update_never_creates_upsert_creates_or_merges.2.2.1 emptyStore _
      (fun u hu cid mid hc hm => rfl)
  · exact update_never_creates_upsert_creates_or_merges.2.2.2.1 emptyStore _ "A" rfl
  · exact update_never_creates_upsert_creates_or_merges.2.2.2.2.1 emptyStore _ "c1" rfl
  · exact update_never_creates_upsert_creates_or_merges.2.2.2.2.2 emptyStore _ "c1" "m1"
      rfl rfl

/-! ### Upsert idempotence -/

theorem upsertContact_idem (st : Store) (c : Obj) :
    (st.upsertContact c).upsertContact c = st.upsertContact c := by
  cases hid : idOf c with
  | none =>
      unfold Store.upsertContact
      rw [hid]
  | some i =>
      obtain ⟨st1, hst1⟩ : ∃ st1, st.upsertContact c = st1 := ⟨_, rfl⟩
      have hc1 : st1.contacts
          = kvSet st.contacts i (omerge ((kvGet st.contacts i).getD []) c) := by
        rw [← hst1]
        unfold Store.upsertContact
        rw [hid]
      rw [hst1]
      unfold Store.upsertContact
      rw [hid]
      show ({ st1 with contacts := kvSet st1.contacts i (omerge ((kvGet st1.contacts i).getD []) c) } : Store) = st1
      apply store_eta_contacts
      rw [hc1, kvGet_kvSet_self, Option.getD_some, omerge_omerge_self, kvSet_kvSet_self]

theorem upsertChat_idem (st : Store) (c : Obj) :
    (st.upsertChat c).upsertChat c = st.upsertChat c := by
  cases hid : idOf c with
  | none =>
      unfold Store.upsertChat
      rw [hid]
  | some i =>
      obtain ⟨st1, hst1⟩ : ∃ st1, st.upsertChat c = st1 := ⟨_, rfl⟩
      have hc1 : st1.chats
          = kvSet st.chats i (omerge ((kvGet st.chats i).getD []) c) := by
        rw [← hst1]
        unfold Store.upsertChat
        rw [hid]
      rw [hst1]
      unfold Store.upsertChat
      rw [hid]
      show ({ st1 with chats := kvSet st1.chats i (omerge ((kvGet st1.chats i).getD []) c) } : Store) = st1
      apply store_eta_chats
      rw [hc1, kvGet_kvSet_self, Option.getD_some, omerge_omerge_self, kvSet_kvSet_self]

theorem upsertMessage_idem (st : Store) (m : Obj) :
    (st.upsertMessage m).upsertMessage m = st.upsertMessage m := by
  cases hc : msgChatId m with
  | none =>
      unfold Store.upsertMessage
      rw [hc]
  | some cid =>
      cases hm : msgIdOf m with
      | none =>
          unfold Store.upsertMessage
          rw [hc, hm]
      | some mid =>
          obtain ⟨st1, hst1⟩ : ∃ s, st.upsertMessage m = s := ⟨_, rfl⟩
          have hm1 : st1.messages = kvSet st.messages cid (kvSet ((kvGet st.messages cid).getD []) mid (deepCopyObj m)) := by
            rw [← hst1]
            unfold Store.upsertMessage
            rw [hc, hm]
          rw [hst1]
          unfold Store.upsertMessage
          rw [hc, hm]
          show ({ st1 with messages := kvSet st1.messages cid (kvSet ((kvGet st1.messages cid).getD []) mid (deepCopyObj m)) } : Store) = st1
          apply store_eta_messages
          rw [hm1, kvGet_kvSet_self, Option.getD_some, kvSet_kvSet_self, kvSet_kvSet_self]

/-! ### C4 — upsert idempotence; merge is per-field for contacts and chats
but wholesale replacement for messages -/

/-- Concrete message key used in counterexamples and witnesses. -/
def exKey : Obj := [("remoteJid", Json.str "chat1"), ("id", Json.str "m1")]

/-- A message carrying a `text` field. -/
def exMsgFull : Obj := [("key", Json.obj exKey), ("text", Json.str "hi")]

/-- The same message identity without the `text` field. -/
def exMsgBare : Obj := [("key", Json.obj exKey)]

/-- Counterexample to C4 as stated: the claim asserts that for every upsert
(including message upserts) fields present only in the old record survive
the merge.  `upsertMessage` replaces the stored record wholesale: after
upserting `exMsgFull` (which has a `text` field) and then `exMsgBare`
(same key, no `text`), the cached message has lost its `text` field. -/
theorem upsertMessage_not_per_field_merge :
    kvGet ((kvGet ((kvGet (emptyStore.upsertMessage exMsgFull).messages "chat1").getD [])
        "m1").getD []) "text" = some (Json.str "hi") ∧
    kvGet ((kvGet ((kvGet ((emptyStore.upsertMessage exMsgFull).upsertMessage
        exMsgBare).messages "chat1").getD []) "m1").getD []) "text" = none := by
  exact ⟨rfl, rfl⟩

/-- C4 (amended): applying the same upsert twice produces exactly the same
final store state as applying it once, for contact, chat and message
upserts alike.  For contacts and chats the merge is last-write-wins per
field (fields present only in the old record survive); `upsertMessage`
instead replaces the stored record wholesale with the given record, so
old-only fields of a message do not survive. -/
theorem upsert_idempotent_and_merge_semantics :
    (∀ (st : Store) (c : Obj), (st.upsertContact c).upsertContact c = st.upsertContact c) ∧
    (∀ (st : Store) (c : Obj), (st.upsertChat c).upsertChat c = st.upsertChat c) ∧
    (∀ (st : Store) (m : Obj), (st.upsertMessage m).upsertMessage m = st.upsertMessage m) ∧
    (∀ (st : Store) (c : Obj) (i k : String), idOf c = some i →
        (∀ v, kvGet c k = some v →
            kvGet ((kvGet (st.upsertContact c).contacts i).getD []) k = some v) ∧
        (kvGet c k = none →
            kvGet ((kvGet (st.upsertContact c).contacts i).getD []) k
              = kvGet ((kvGet st.contacts i).getD []) k)) ∧
    (∀ (st : Store) (c : Obj) (i k : String), idOf c = some i →
        (∀ v, kvGet c k = some v →
            kvGet ((kvGet (st.upsertChat c).chats i).getD []) k = some v) ∧
        (kvGet c k = none →
            kvGet ((kvGet (st.upsertChat c).chats i).getD []) k
              = kvGet ((kvGet st.chats i).getD []) k)) ∧
    (∀ (st : Store) (m : Obj) (cid mid : String),
        msgChatId m = some cid → msgIdOf m = some mid →
        kvGet ((kvGet (st.upsertMessage m).messages cid).getD []) mid = some m) := by
  refine ⟨upsertContact_idem, upsertChat_idem, upsertMessage_idem, ?_, ?_, upsertMessage_get⟩
  · intro st c i k hid
    have hrec := upsertContact_get st c i hid
    constructor
    · intro v hv
      rw [hrec]
      simp only [Option.getD_some]
      exact kvGet_omerge_some _ _ _ _ hv
    · intro hnone
      rw [hrec]
      simp only [Option.getD_some]
      exact kvGet_omerge_none _ _ _ hnone
  · intro st c i k hid
    have hrec := upsertChat_get st c i hid
    constructor
    · intro v hv
      rw [hrec]
      simp only [Option.getD_some]
      exact kvGet_omerge_some _ _ _ _ hv
    · intro hnone
      rw [hrec]
      simp only [Option.getD_some]
      exact kvGet_omerge_none _ _ _ hnone

/-- Witness for C4 at concrete inputs: double upsert of a concrete contact
equals a single upsert; a merged contact keeps its old-only field and takes
the patch's value for the patched field; a re-upserted message equals the
given record. -/
theorem upsert_idempotent_and_merge_semantics_witness :
    ((emptyStore.upsertContact [("id", Json.str "A"), ("name", Json.str "Alice")]).upsertContact
        [("id", Json.str "A"), ("name", Json.str "Alice")])
      = emptyStore.upsertContact [("id", Json.str "A"), ("name", Json.str "Alice")] ∧
    kvGet ((kvGet ((emptyStore.upsertContact
        [("id", Json.str "A"), ("name", Json.str "Alice")]).upsertContact
        [("id", Json.str "A"), ("phone", Json.str "42")]).contacts "A").getD [])
        "name" = some (Json.str "Alice") ∧
    kvGet ((kvGet ((emptyStore.upsertMessage exMsgFull).upsertMessage exMsgBare).messages
        "chat1").getD []) "m1" = some exMsgBare := by
  refine ⟨?_, ?_, ?_⟩
  · exact upsert_idempotent_and_merge_semantics.1 emptyStore
      [("id", Json.str "A"), ("name", Json.str "Alice")]
  · exact ((upsert_idempotent_and_merge_semantics.2.2.2.1
        (emptyStore.upsertContact [("id", Json.str "A"), ("name", Json.str "Alice")])
        [("id", Json.str "A"), ("phone", Json.str "42")] "A" "name" rfl).2 rfl).trans rfl
  · exact upsert_idempotent_and_merge_semantics.2.2.2.2.2
      (emptyStore.upsertMessage exMsgFull) exMsgBare "chat1" "m1" rfl rfl

/-! ### C9 — upsert with a missing identifier: silent no-op, no log -/

/-- Counterexample to C9 as stated: the claim asserts the guard path logs.
Upserting a contact without an `id` field leaves the store unchanged and
produces an empty log trace — `upsertContact`'s body contains no logger
call; its guard is a bare `return`. -/
theorem upsert_missing_id_produces_no_log :
    emptyStore.upsertContactL [("name", Json.str "Alice")]
      = (emptyStore, ([] : List String)) := rfl

/-- C9 (amended): upserting a record that lacks an identifier does not
throw (the operations are total), emits no log line, and leaves the store
state completely unchanged, for contact, chat and message upserts. -/
theorem upsert_missing_id_silent_noop :
    (∀ (st : Store) (c : Obj), idOf c = none → st.upsertContactL c = (st, [])) ∧
    (∀ (st : Store) (c : Obj), idOf c = none → st.upsertChatL c = (st, [])) ∧
    (∀ (st : Store) (m : Obj), msgChatId m = none ∨ msgIdOf m = none →
        st.upsertMessageL m = (st, [])) := by
  refine ⟨?_, ?_, ?_⟩
  · intro st c hid
    unfold Store.upsertContactL Store.upsertContact
    rw [hid]
  · intro st c hid
    unfold Store.upsertChatL Store.upsertChat
    rw [hid]
  · intro st m h
    unfold Store.upsertMessageL Store.upsertMessage
    rcases h with h | h
    · rw [h]
    · rw [h]
      cases hc : msgChatId m <;> rfl

/-- Witness for C9 at concrete inputs: records without identifiers. -/
theorem upsert_missing_id_silent_noop_witness :
    emptyStore.upsertContactL [("name", Json.str "Bob")] = (emptyStore, []) ∧
    emptyStore.upsertChatL [("id", Json.null)] = (emptyStore, []) ∧
    emptyStore.upsertMessageL [("text", Json.str "orphan")] = (emptyStore, []) := by
  refine ⟨?_, ?_, ?_⟩
  · exact upsert_missing_id_silent_noop.1 emptyStore _ rfl
  · exact upsert_missing_id_silent_noop.2.1 emptyStore _ rfl
  · exact upsert_missing_id_silent_noop.2.2 emptyStore _ (Or.inl rfl)

/-! ### Connection manager (`Core/bot.js`, class `HyperWaBot`)

The `connection === 'close'` branch of `handleConnectionUpdate` and the
`shutdown` method, modelled as functions on an explicit state.
`DisconnectReason.loggedOut` is status code 401 in the protocol library.
The reconnect `setTimeout(() => this.startWhatsApp(), 5000)` handle is not
stored anywhere in the source, and `shutdown()` contains no `clearTimeout`;
`startWhatsApp` itself performs no `isShuttingDown` check.  Armed,
not-yet-fired reconnect timers are therefore modelled as a list of delays
that only firing can remove. -/

/-- Status code carried by a `loggedOut` disconnect. -/
def loggedOutCode : Nat := 401

/-- Observable state of the connection manager. -/
structure ConnState where
  isShuttingDown : Bool := false
  useMongoAuth : Bool := false
  pendingReconnects : List Nat := []
  authClears : Nat := 0
  storeSaves : Nat := 0
  exited : Bool := false
deriving Repr, DecidableEq

namespace ConnState

/-- The `connection === 'close'` branch of `handleConnectionUpdate`:
`shouldReconnect = statusCode !== DisconnectReason.loggedOut`; if so and
not shutting down, save the store and arm one 5000 ms reconnect timer;
otherwise clear the MongoDB auth session (only when `useMongoAuth`), save
the store, and `process.exit(1)`. -/
def handleConnectionClose (s : ConnState) (statusCode : Nat) : ConnState :=
  if statusCode ≠ loggedOutCode ∧ s.isShuttingDown = false then
    { s with storeSaves := s.storeSaves + 1
             pendingReconnects := s.pendingReconnects ++ [5000] }
  else
    { s with authClears := s.authClears + (if s.useMongoAuth then 1 else 0)
             storeSaves := s.storeSaves + 1
             exited := true }

/-- `shutdown()`: sets `isShuttingDown`, flushes the store and closes the
socket.  It contains no `clearTimeout`; pending reconnect timers survive. -/
def shutdown (s : ConnState) : ConnState :=
  { s with isShuttingDown := true, storeSaves := s.storeSaves + 1 }

/-- An armed reconnect timer fires: `startWhatsApp` is invoked (it has no
`isShuttingDown` guard).  Returns the new state and whether a reconnect
attempt was made. -/
def fireNextReconnect (s : ConnState) : ConnState × Bool :=
  match s.pendingReconnects with
  | [] => (s, false)
  | _ :: rest => ({ s with pendingReconnects := rest }, true)

end ConnState

/-! ### C5 — logged-out close: no reconnect; auth clearing -/

/-- Counterexample to C5 as stated: with file-based auth configured
(`useMongoAuth = false`, the constructor default when
`config.auth.useMongoAuth` is falsy), a logged-out close triggers no
clearing of persisted auth state at all (the bot merely logs an
instruction to delete `auth_info` manually), so clearing does not happen
"exactly once". -/
theorem loggedOut_file_auth_no_clear :
    (ConnState.handleConnectionClose { useMongoAuth := false } loggedOutCode).authClears = 0 ∧
    (ConnState.handleConnectionClose { useMongoAuth := false } loggedOutCode).exited = true := by
  exact ⟨rfl, rfl⟩

/-- C5 (amended): on a connection close whose disconnect reason is
logged-out, the manager never schedules a reconnect timer and stops
(`process.exit(1)`); clearing of persisted auth state is triggered exactly
once when MongoDB-backed auth is configured, and zero times with
file-based auth. -/
theorem loggedOut_no_reconnect_clear_iff_mongo (s : ConnState) :
    (s.handleConnectionClose loggedOutCode).pendingReconnects = s.pendingReconnects ∧
    (s.handleConnectionClose loggedOutCode).exited = true ∧
    (s.handleConnectionClose loggedOutCode).authClears
      = s.authClears + (if s.useMongoAuth then 1 else 0) := by
  unfold ConnState.handleConnectionClose
  rw [if_neg (by simp)]
  exact ⟨rfl, rfl, rfl⟩

/-! ### C6 — non-fatal close: one fixed-delay reconnect; shutdown and the
pending timer -/

/-- Counterexample to C6 as stated: the claim asserts an operator-initiated
shutdown clears any pending reconnect timer so that no reconnect attempt
fires after shutdown begins.  `shutdown()` never calls `clearTimeout` (the
timer handle is not even retained), so a timer armed by a non-fatal close
before shutdown still fires afterwards and invokes `startWhatsApp`. -/
theorem shutdown_leaves_pending_reconnect :
    ((ConnState.handleConnectionClose { useMongoAuth := true } 428).shutdown).pendingReconnects
      = [5000] ∧
    (((ConnState.handleConnectionClose { useMongoAuth := true } 428).shutdown).fireNextReconnect).2
      = true := by
  exact ⟨rfl, rfl⟩

/-- C6 (amended): every connection close whose reason is not logged-out,
received while no shutdown has been requested, schedules exactly one
reconnect attempt with the fixed 5000 ms delay and does not stop the
process; `shutdown()` sets the shutting-down flag, which prevents any
subsequent close event from arming a reconnect timer, but it does not
clear an already-armed reconnect timer — the pending timers survive
shutdown unchanged. -/
theorem reconnect_fixed_delay_and_shutdown_no_cancel :
    (∀ (s : ConnState) (code : Nat), code ≠ loggedOutCode → s.isShuttingDown = false →
        (s.handleConnectionClose code).pendingReconnects = s.pendingReconnects ++ [5000] ∧
        (s.handleConnectionClose code).exited = s.exited) ∧
    (∀ (s : ConnState) (code : Nat),
        ((s.shutdown).handleConnectionClose code).pendingReconnects
          = (s.shutdown).pendingReconnects) ∧
    (∀ s : ConnState, (s.shutdown).pendingReconnects = s.pendingReconnects) := by
  refine ⟨?_, ?_, ?_⟩
  · intro s code hcode hflag
    unfold ConnState.handleConnectionClose
    rw [if_pos ⟨hcode, hflag⟩]
    exact ⟨rfl, rfl⟩
  · intro s code
    unfold ConnState.handleConnectionClose
    rw [if_neg (by simp [ConnState.shutdown])]
  · intro s
    rfl

/-- Witness for C6 at a concrete input: a stream-errored close (code 515)
on the fresh manager arms one 5000 ms timer. -/
theorem reconnect_fixed_delay_and_shutdown_no_cancel_witness :
    (ConnState.handleConnectionClose { useMongoAuth := false } 515).pendingReconnects
      = [5000] ∧
    ((ConnState.shutdown { useMongoAuth := false }).handleConnectionClose 515).pendingReconnects
      = [] := by
  constructor
  · exact ((reconnect_fixed_delay_and_shutdown_no_cancel.1
      { useMongoAuth := false } 515 (by decide) rfl).1).trans rfl
  · exact (reconnect_fixed_delay_and_shutdown_no_cancel.2.1
      { useMongoAuth := false } 515).trans rfl

/-! ### Auth-state providers

Two of the repository's `useMongoAuthState` implementations are cited by
the auth-state claims:

* the session-document variant (`loadSession`/`saveSession` over one
  MongoDB document `{_id: "session", creds, keys}`): `load` validates
  `!doc.creds || !doc.keys`, synthesizes `initAuthCreds()` when the record
  is absent or invalid and persists it immediately with `saveSession`, and
  re-initializes (also persisting) when the loaded creds lack a truthy
  `registrationId`;
* the pure-Mongo variant (collections `auth_creds` / `auth_keys`):
  `loadCreds` returns the stored creds when the `main` document exists
  with a truthy `creds` field and otherwise returns its local
  `initAuthCreds()` defaults — without writing anything; persistence only
  happens later through the debounced `saveCreds`.

The fresh credentials produced by the protocol library's `initAuthCreds()`
are an external input and appear as an explicit parameter. -/

/-- JS property access `j.k`: the field of an object, `undefined`
(modelled `null`, both falsy) otherwise. -/
def jfield (j : Json) (k : String) : Json :=
  match j with
  | Json.obj o => (kvGet o k).getD Json.null
  | _ => Json.null

/-- The MongoDB document `{_id: "session", creds, keys}` of the
session-document auth variant. -/
structure SessionDoc where
  creds : Json
  keys : Json
deriving Repr

/-- `loadSession()`: `findOne({_id:'session'})`, then the structural check
`!doc.creds || !doc.keys` — an absent or structurally invalid document
yields `null`. -/
def loadSessionDoc (db : Option SessionDoc) : Option (Json × Json) :=
  match db with
  | none => none
  | some d => if jtruthy d.creds && jtruthy d.keys then some (d.creds, d.keys) else none

/-- The init flow of the session-document `useMongoAuthState`: load the
session; when absent/invalid synthesize `{creds: initAuthCreds(), keys: {}}`
and persist it immediately (`saveSession`); when loaded creds lack a truthy
`registrationId`, re-initialize and persist likewise.  Returns the
in-memory `{creds, keys}` state and the resulting database content.
`fresh` stands for the value produced by the external `initAuthCreds()`. -/
def useMongoAuthStateDoc (db : Option SessionDoc) (fresh : Json) :
    (Json × Json) × Option SessionDoc :=
  match loadSessionDoc db with
  | none => ((fresh, Json.obj []), some ⟨fresh, Json.obj []⟩)
  | some (creds, keys) =>
      if jtruthy (jfield creds "registrationId") then ((creds, keys), db)
      else ((fresh, Json.obj []), some ⟨fresh, Json.obj []⟩)

/-- The local `initAuthCreds()` of the pure-Mongo auth variant: a fixed
default credential record (note `registrationId: 0`). -/
def initAuthCredsPure : Json := Json.obj
  [("noiseKey", Json.null), ("signedIdentityKey", Json.null),
   ("signedPreKey", Json.null), ("registrationId", Json.num 0),
   ("advSecretKey", Json.null), ("processedHistoryMessages", Json.arr []),
   ("nextPreKeyId", Json.num 0), ("firstUnuploadedPreKeyId", Json.num 0),
   ("accountSettings", Json.obj []), ("accountSyncCounter", Json.num 0),
   ("platform", Json.str "web"), ("phoneId", Json.null),
   ("deviceId", Json.null), ("identityId", Json.null),
   ("registered", Json.bool false), ("backupToken", Json.null),
   ("registration", Json.obj [])]

/-- `loadCreds()` of the pure-Mongo variant: return `credsDoc.creds` when
the `main` document exists with a truthy `creds` field, otherwise the
default `initAuthCreds()`.  `doc` is the `creds` field of the stored
document, when one exists. -/
def loadCreds (doc : Option Json) : Json :=
  match doc with
  | some c => if jtruthy c then c else initAuthCredsPure
  | none => initAuthCredsPure

/-- Init flow of the pure-Mongo `useMongoAuthState`: `loadCreds` then
`loadKeys`; no write to the backing store happens during initialization
(persistence is deferred to the debounced `saveCreds`).  Returns the
in-memory creds and the (unchanged) creds-collection content. -/
def pureMongoInit (doc : Option Json) : Json × Option Json :=
  (loadCreds doc, doc)

/-! ### C7 — load on an empty backing store -/

/-- Counterexample to C7 as stated, on the cited pure-Mongo variant
(`loadCreds`): `load()` on an empty backing store synthesizes the default
credential set but does **not** persist it — after initialization the
backing store is still empty, refuting "persists it immediately". -/
theorem pureMongo_load_does_not_persist :
    pureMongoInit none = (initAuthCredsPure, none) := rfl

/-- C7 (amended): for the session-document Mongo auth provider, `load()`
on an empty backing store — or on a record failing the structural check
`!doc.creds || !doc.keys`, i.e. with a falsy credential blob or a falsy
key mapping — synthesizes a fresh credential set with an empty key mapping
and persists it immediately, and a second `load()` in a new process (with
its own freshly generated default `fresh2`) returns exactly the persisted
credentials, never a fatal error.  The pure-Mongo variant instead
synthesizes its deterministic defaults without persisting them; its second
load returns the same defaults again. -/
theorem mongoAuth_load_fresh_and_persist :
    (∀ fresh : Json,
        (useMongoAuthStateDoc none fresh).1 = (fresh, Json.obj []) ∧
        (useMongoAuthStateDoc none fresh).2 = some ⟨fresh, Json.obj []⟩) ∧
    (∀ fresh fresh2 : Json, jtruthy fresh = true →
        jtruthy (jfield fresh "registrationId") = true →
        (useMongoAuthStateDoc (useMongoAuthStateDoc none fresh).2 fresh2).1
          = (fresh, Json.obj [])) ∧
    (∀ (d : SessionDoc) (fresh : Json),
        jtruthy d.creds = false ∨ jtruthy d.keys = false →
        (useMongoAuthStateDoc (some d) fresh).1 = (fresh, Json.obj []) ∧
        (useMongoAuthStateDoc (some d) fresh).2 = some ⟨fresh, Json.obj []⟩) ∧
    (∀ doc : Option Json, pureMongoInit doc
        = (loadCreds doc, doc) ∧ pureMongoInit none = (initAuthCredsPure, none)) := by
  refine ⟨?_, ?_, ?_, ?_⟩
  · intro fresh
    exact ⟨rfl, rfl⟩
  · intro fresh fresh2 htr hreg
    simp [useMongoAuthStateDoc, loadSessionDoc, htr, hreg,
      show jtruthy (Json.obj []) = true from rfl]
  · intro d fresh hfail
    have hcond : (jtruthy d.creds && jtruthy d.keys) = false := by
      rcases hfail with h | h <;> simp [h]
    simp [useMongoAuthStateDoc, loadSessionDoc, hcond]
  · intro doc
    exact ⟨rfl, rfl⟩

/-- Witness for C7 at concrete inputs: fresh credentials with a nonzero
registration id round-trip through the empty session-document store; a
record with a falsy credential blob and a record with truthy creds but a
falsy key mapping are both discarded for a fresh persisted set. -/
theorem mongoAuth_load_fresh_and_persist_witness :
    (useMongoAuthStateDoc none (Json.obj [("registrationId", Json.num 7)])).2
      = some ⟨Json.obj [("registrationId", Json.num 7)], Json.obj []⟩ ∧
    (useMongoAuthStateDoc
        (useMongoAuthStateDoc none (Json.obj [("registrationId", Json.num 7)])).2
        (Json.obj [("registrationId", Json.num 9)])).1
      = (Json.obj [("registrationId", Json.num 7)], Json.obj []) ∧
    (useMongoAuthStateDoc (some ⟨Json.null, Json.obj []⟩)
        (Json.obj [("registrationId", Json.num 7)])).1
      = (Json.obj [("registrationId", Json.num 7)], Json.obj []) ∧
    (useMongoAuthStateDoc (some ⟨Json.obj [("registrationId", Json.num 5)], Json.null⟩)
        (Json.obj [("registrationId", Json.num 8)])).1
      = (Json.obj [("registrationId", Json.num 8)], Json.obj []) ∧
    (useMongoAuthStateDoc (some ⟨Json.obj [("registrationId", Json.num 5)], Json.null⟩)
        (Json.obj [("registrationId", Json.num 8)])).2
      = some ⟨Json.obj [("registrationId", Json.num 8)], Json.obj []⟩ := by
  refine ⟨?_, ?_, ?_, ?_, ?_⟩
  · exact (mongoAuth_load_fresh_and_persist.1 _).2
  · exact mongoAuth_load_fresh_and_persist.2.1 _ _ rfl rfl
  · exact (mongoAuth_load_fresh_and_persist.2.2.1 ⟨Json.null, Json.obj []⟩ _ (Or.inl rfl)).1
  · exact (mongoAuth_load_fresh_and_persist.2.2.1
      ⟨Json.obj [("registrationId", Json.num 5)], Json.null⟩ _ (Or.inr rfl)).1
  · exact (mongoAuth_load_fresh_and_persist.2.2.1
      ⟨Json.obj [("registrationId", Json.num 5)], Json.null⟩ _ (Or.inr rfl)).2

/-! ### Debounced credential persistence (C8)

Both cited implementations share the same timer discipline:

```
if (saveTimer) clearTimeout(saveTimer);
saveTimer = setTimeout(flush, WINDOW);
```

with `WINDOW = 10000` ms in the tar-archive variant (whose `saveCreds`
additionally performs an immediate local-file write on every call) and
`WINDOW = 2000` ms in the pure-Mongo `debouncedSaveCreds`.  The flush reads
the credential state at fire time, so it carries the latest state.

Armed timers are modelled as a list of `(timerId, deadline)` pairs so that
"at most one pending flush exists" is a provable property of the
clear-then-restart discipline, not a fact built into the state type;
`current` is the `saveTimer` variable (it may keep naming an
already-fired timer, exactly like the JS variable). -/

/-- State of one debounced flush target. -/
structure DebounceState where
  now : Nat := 0
  armed : List (Nat × Nat) := []
  current : Option Nat := none
  nextId : Nat := 0
  backendWrites : List Json := []
  localWrites : List Json := []
  creds : Json := Json.null
deriving Repr

/-- Events affecting the debounced flush: a `saveCreds()` call observing
credential state `v`, or event-loop time advancing to absolute time `t`
(firing every armed timer whose deadline has passed). -/
inductive DebEvent where
  | saveCreds (v : Json)
  | advance (t : Nat)
deriving Repr

/-- One step of the debounce machine with window `w`. -/
def debStep (w : Nat) (s : DebounceState) : DebEvent → DebounceState
  | DebEvent.saveCreds v =>
      let armed1 := match s.current with
        | some id => s.armed.filter (fun p => decide (p.1 ≠ id))
        | none => s.armed
      { s with creds := v
               localWrites := s.localWrites ++ [v]
               armed := armed1 ++ [(s.nextId, s.now + w)]
               current := some s.nextId
               nextId := s.nextId + 1 }
  | DebEvent.advance t =>
      let t1 := max s.now t
      let due := s.armed.filter (fun p => decide (p.2 ≤ t1))
      { s with now := t1
               armed := s.armed.filter (fun p => decide (¬ p.2 ≤ t1))
               backendWrites := s.backendWrites ++ due.map (fun _ => s.creds) }

/-- Run a sequence of events from a state. -/
def debRun (w : Nat) (s : DebounceState) (evs : List DebEvent) : DebounceState :=
  evs.foldl (debStep w) s

/-- The initial debounce state (`let saveTimer;` — nothing armed). -/
def debInit : DebounceState := {}

/-- Invariant: at most one timer is armed, and when one is, it is the one
named by the `saveTimer` variable. -/
def DebInv (s : DebounceState) : Prop :=
  match s.armed, s.current with
  | [], _ => True
  | [(i, _)], some j => i = j
  | _, _ => False

theorem debStep_inv (w : Nat) (s : DebounceState) (e : DebEvent)
    (h : DebInv s) : DebInv (debStep w s e) := by
  cases e with
  | saveCreds v =>
      unfold debStep DebInv
      match harmed : s.armed, hcur : s.current with
      | [], none =>
          simp [harmed, hcur]
      | [], some j =>
          simp [harmed, hcur]
      | [(i, d)], some j =>
          unfold DebInv at h
          rw [harmed, hcur] at h
          subst h
          simp [harmed, hcur, List.filter]
      | [(i, d)], none =>
          unfold DebInv at h
          rw [harmed, hcur] at h
          cases h
      | (a :: b :: t), _ =>
          unfold DebInv at h
          rw [harmed] at h
          rcases a with ⟨x, y⟩
          rcases b with ⟨x2, y2⟩
          cases hcur2 : s.current <;> rw [hcur2] at h <;> cases h
  | advance t =>
      unfold debStep DebInv
      match harmed : s.armed, hcur : s.current with
      | [], _ =>
          simp [harmed]
      | [(i, d)], some j =>
          unfold DebInv at h
          rw [harmed, hcur] at h
          subst h
          by_cases hd : d ≤ max s.now t
          · simp [harmed, hcur, List.filter, hd]
          · simp [harmed, hcur, List.filter, hd]
      | [(i, d)], none =>
          unfold DebInv at h
          rw [harmed, hcur] at h
          cases h
      | (a :: b :: rest), _ =>
          unfold DebInv at h
          rw [harmed] at h
          rcases a with ⟨x, y⟩
          rcases b with ⟨x2, y2⟩
          cases hcur2 : s.current <;> rw [hcur2] at h <;> cases h

theorem debRun_inv (w : Nat) (evs : List DebEvent) (s : DebounceState)
    (h : DebInv s) : DebInv (debRun w s evs) := by
  induction evs generalizing s with
  | nil => exact h
  | cons e t ih =>
      show DebInv (debRun w (debStep w s e) t)
      exact ih _ (debStep_inv w s e h)

theorem debInv_length (s : DebounceState) (h : DebInv s) : s.armed.length ≤ 1 := by
  unfold DebInv at h
  match harmed : s.armed with
  | [] => simp
  | [(i, d)] => simp
  | (a :: b :: t) =>
      rw [harmed] at h
      rcases a with ⟨x, y⟩
      rcases b with ⟨x2, y2⟩
      cases hcur : s.current <;> rw [hcur] at h <;> cases h

theorem saveCreds_rearm_clears_prior (w : Nat) (s : DebounceState) (v : Json)
    (h : DebInv s) :
    (debStep w s (DebEvent.saveCreds v)).armed = [(s.nextId, s.now + w)] := by
  unfold debStep
  match harmed : s.armed, hcur : s.current with
  | [], none =>
      simp [harmed, hcur]
  | [], some j =>
      simp [harmed, hcur]
  | [(i, d)], some j =>
      unfold DebInv at h
      rw [harmed, hcur] at h
      subst h
      simp [harmed, hcur, List.filter]
  | [(i, d)], none =>
      unfold DebInv at h
      rw [harmed, hcur] at h
      cases h
  | (a :: b :: t), _ =>
      unfold DebInv at h
      rw [harmed] at h
      rcases a with ⟨x, y⟩
      rcases b with ⟨x2, y2⟩
      cases hcur2 : s.current <;> rw [hcur2] at h <;> cases h

/-! ### C8 — two saveCreds calls inside the window: one backend write -/

/-- C8: with the clear-then-restart debounce discipline of `saveCreds` /
`debouncedSaveCreds`: (1) after any sequence of calls and time advances at
most one flush timer is pending; (2) re-arming always clears any prior
pending timer first, leaving exactly the newly armed one; (3) two
`saveCreds()` calls within the debounce window produce exactly one write
to the persistence backend, and that write carries the credential state of
the latest call. -/
theorem saveCreds_debounce_single_write :
    (∀ (w : Nat) (evs : List DebEvent),
        (debRun w debInit evs).armed.length ≤ 1) ∧
    (∀ (w : Nat) (s : DebounceState) (v : Json), DebInv s →
        (debStep w s (DebEvent.saveCreds v)).armed = [(s.nextId, s.now + w)]) ∧
    (∀ (w : Nat) (v1 v2 : Json) (t T : Nat), t < w → t + w ≤ T →
        (debRun w debInit
            [DebEvent.saveCreds v1, DebEvent.advance t,
             DebEvent.saveCreds v2, DebEvent.advance T]).backendWrites = [v2] ∧
        (debRun w debInit
            [DebEvent.saveCreds v1, DebEvent.advance t,
             DebEvent.saveCreds v2, DebEvent.advance T]).armed = []) := by
  refine ⟨?_, saveCreds_rearm_clears_prior, ?_⟩
  · intro w evs
    exact debInv_length _ (debRun_inv w evs debInit trivial)
  · intro w v1 v2 t T ht hT
    have h1 : max 0 t = t := Nat.max_eq_right (Nat.zero_le t)
    have h2 : ¬ w ≤ t := by omega
    have h3 : max t T = T := Nat.max_eq_right (by omega)
    have h4 : t + w ≤ T := hT
    have h5 : ¬ T < t + w := by omega
    constructor <;>
      simp [debRun, debStep, debInit, List.filter, h1, h2, h3, h4, h5, ht]

/-- Witness for C8 at concrete inputs: window 2000 ms (the pure-Mongo
variant), calls at 0 ms and 500 ms, flush observed at 3000 ms. -/
theorem saveCreds_debounce_single_write_witness :
    (debRun 2000 debInit
        [DebEvent.saveCreds (Json.num 1), DebEvent.advance 500,
         DebEvent.saveCreds (Json.num 2), DebEvent.advance 3000]).backendWrites
      = [Json.num 2] ∧
    (debRun 2000 debInit [DebEvent.saveCreds (Json.num 1)]).armed.length ≤ 1 := by
  constructor
  · exact (saveCreds_debounce_single_write.2.2 2000 (Json.num 1) (Json.num 2) 500 3000
      (by decide) (by decide)).1
  · exact saveCreds_debounce_single_write.1 2000 [DebEvent.saveCreds (Json.num 1)]

/-! ### Heap model for message deep copies (C10)

`upsertMessage` stores `JSON.parse(JSON.stringify(message))` and
`loadMessage` returns `JSON.parse(JSON.stringify(cached))`: fresh objects,
detached from every object the caller holds.  To state this aliasing
property, JS objects live in an explicit heap of address-indexed cells;
the message cache maps (chat id, message id) to a cell address, mutation
writes a cell in place, and the deep copy allocates a fresh cell holding a
structurally equal value. -/

/-- Lookup in a Nat-keyed association list. -/
def hGet {α : Type} (m : List (Nat × α)) (a : Nat) : Option α :=
  m.lookup a

theorem hGet_cons {α : Type} (a b : Nat) (v : α) (m : List (Nat × α)) :
    hGet ((b, v) :: m) a = if a = b then some v else hGet m a := by
  by_cases h : a = b
  · subst h
    simp [hGet, List.lookup]
  · have hb : (a == b) = false := by simpa using h
    simp [hGet, List.lookup, hb, h]

theorem hGet_append {α : Type} (a : Nat) (l1 l2 : List (Nat × α)) :
    hGet (l1 ++ l2) a =
      match hGet l1 a with
      | some v => some v
      | none => hGet l2 a := by
  induction l1 with
  | nil => simp [hGet]
  | cons p t ih =>
      rcases p with ⟨b, v⟩
      by_cases h : a = b
      · simp [hGet_cons, h]
      · simpa [hGet_cons, h] using ih

theorem hGet_map_replace_ne {α : Type} (a a' : Nat) (v : α) (m : List (Nat × α))
    (h : a' ≠ a) :
    hGet (m.map (fun p => if p.1 = a then (a, v) else p)) a' = hGet m a' := by
  induction m with
  | nil => simp
  | cons p t ih =>
      rcases p with ⟨b, u⟩
      by_cases hb : b = a
      · subst hb
        simp [hGet_cons, h, ih]
      · by_cases ha : a' = b
        · simp [hGet_cons, hb, ha]
        · simp [hGet_cons, hb, ha, ih]

theorem hGet_some_mem {α : Type} (m : List (Nat × α)) (a : Nat) (v : α)
    (h : hGet m a = some v) : (a, v) ∈ m := by
  induction m with
  | nil => cases h
  | cons p t ih =>
      rcases p with ⟨b, u⟩
      by_cases hb : a = b
      · subst hb
        rw [hGet_cons, if_pos rfl] at h
        injection h with h2
        subst h2
        exact List.mem_cons_self _ _
  
      · rw [hGet_cons, if_neg hb] at h
        exact List.mem_cons_of_mem _ (ih h)

theorem hGet_none_of_all_ne {α : Type} (m : List (Nat × α)) (a : Nat)
    (h : ∀ p ∈ m, p.1 ≠ a) : hGet m a = none := by
  induction m with
  | nil => rfl
  | cons p t ih =>
      rcases p with ⟨b, u⟩
      have hb : b ≠ a := h (b, u) (List.mem_cons_self _ _)
      rw [hGet_cons, if_neg (fun hh => hb hh.symm)]
      exact ih (fun q hq => h q (List.mem_cons_of_mem _ hq))

/-- A heap of JS objects: address-indexed cells plus an allocation bound. -/
structure Heap where
  cells : List (Nat × Obj) := []
  next : Nat := 0
deriving Repr

namespace Heap

/-- Dereference an address. -/
def read (h : Heap) (a : Nat) : Option Obj :=
  hGet h.cells a

/-- Allocate a fresh cell holding `v`; returns the heap and the address. -/
def alloc (h : Heap) (v : Obj) : Heap × Nat :=
  ({ cells := h.cells ++ [(h.next, v)], next := h.next + 1 }, h.next)

/-- In-place mutation of the object stored at `a`. -/
def write (h : Heap) (a : Nat) (v : Obj) : Heap :=
  { h with cells := h.cells.map (fun p => if p.1 = a then (a, v) else p) }

/-- Every allocated address is below the allocation bound. -/
def Wf (h : Heap) : Prop :=
  ∀ p ∈ h.cells, p.1 < h.next

theorem read_lt_next (h : Heap) (a : Nat) (v : Obj)
    (hwf : h.Wf) (hr : h.read a = some v) : a < h.next :=
  hwf (a, v) (hGet_some_mem h.cells a v hr)

theorem read_alloc_self (h : Heap) (v : Obj) (hwf : h.Wf) :
    (h.alloc v).1.read h.next = some v := by
  unfold alloc read
  rw [hGet_append]
  have hn : hGet h.cells h.next = none :=
    hGet_none_of_all_ne h.cells h.next
      (fun p hp => Nat.ne_of_lt (hwf p hp))
  rw [hn]
  simp [hGet_cons]

theorem read_alloc_ne (h : Heap) (v : Obj) (a : Nat) (ha : a ≠ h.next) :
    (h.alloc v).1.read a = h.read a := by
  unfold alloc read
  rw [hGet_append]
  cases hc : hGet h.cells a with
  | some w => rfl
  | none => simp [hGet_cons, ha, hGet]

theorem read_write_ne (h : Heap) (a a' : Nat) (v : Obj) (ha : a' ≠ a) :
    (h.write a v).read a' = h.read a' := by
  unfold write read
  exact hGet_map_replace_ne a a' v h.cells ha

theorem alloc_wf (h : Heap) (v : Obj) (hwf : h.Wf) : (h.alloc v).1.Wf := by
  unfold alloc Wf
  intro p hp
  rcases List.mem_append.mp hp with hm | hm
  · exact Nat.lt_succ_of_lt (hwf p hm)
  · rcases List.mem_singleton.mp hm with rfl
    exact Nat.lt_succ_self _

end Heap

/-- The message cache with by-reference storage: chat id → message id →
cell address (the rest of the store is unaffected by these operations). -/
structure MsgHeapStore where
  messages : List (String × List (String × Nat)) := []
deriving Repr

/-- `upsertMessage` in the heap model: dereference the caller's message,
allocate a fresh cell holding its deep copy, store the fresh address. -/
def upsertMessageH (h : Heap) (st : MsgHeapStore) (addr : Nat) :
    Heap × MsgHeapStore :=
  match h.read addr with
  | none => (h, st)
  | some m =>
      match msgChatId m, msgIdOf m with
      | some cid, some mid =>
          let ha := h.alloc (deepCopyObj m)
          let sub := (kvGet st.messages cid).getD []
          (ha.1, ⟨kvSet st.messages cid (kvSet sub mid ha.2)⟩)
      | _, _ => (h, st)

/-- `loadMessage` in the heap model: dereference the cached address and
return a freshly allocated deep copy. -/
def loadMessageH (h : Heap) (st : MsgHeapStore) (jid mid : String) :
    Heap × Option Nat :=
  if jid = "" ∨ mid = "" then (h, none)
  else
    match kvGet st.messages jid with
    | none => (h, none)
    | some sub =>
        match kvGet sub mid with
        | none => (h, none)
        | some a =>
            match h.read a with
            | none => (h, none)
            | some m =>
                let ha := h.alloc (deepCopyObj m)
                (ha.1, some ha.2)

theorem strField_ne_empty (o : Obj) (f s : String)
    (h : strField o f = some s) : s ≠ "" := by
  unfold strField at h
  cases hk : kvGet o f with
  | none => rw [hk] at h; cases h
  | some j =>
      rw [hk] at h
      cases j with
      | str s2 =>
          change (if s2 = "" then none else some s2) = some s at h
          by_cases hs : s2 = ""
          · rw [if_pos hs] at h; cases h
          · rw [if_neg hs] at h
            injection h with h2
            subst h2
            exact hs
      | null => cases h
      | bool b => cases h
      | num n => cases h
      | arr l => cases h
      | obj o2 => cases h

theorem msgKeyField_ne_empty (m : Obj) (f s : String)
    (h : msgKeyField m f = some s) : s ≠ "" := by
  unfold msgKeyField at h
  cases hk : kvGet m "key" with
  | none => rw [hk] at h; cases h
  | some j =>
      rw [hk] at h
      cases j with
      | obj k => exact strField_ne_empty k f s h
      | null => cases h
      | bool b => cases h
      | num n => cases h
      | str s2 => cases h
      | arr l => cases h

/-! ### C10 — stored and returned messages are isolated deep copies -/

/-- C10: `upsertMessage` caches a fresh cell holding a structural copy of
the caller's message, and `loadMessage` returns another fresh structural
copy: the cached copy equals the caller's object value; the cached address
differs from the caller's address, so mutating the caller's object after
the call leaves the cache unchanged; `loadMessage` yields a fresh address
holding a value equal to the cached message, and mutating the returned
object leaves the cache unchanged as well. -/
theorem message_deep_copy_isolation (h0 : Heap) (st : MsgHeapStore) (addr : Nat)
    (m : Obj) (cid mid : String) (w : Obj)
    (hwf : h0.Wf) (hread : h0.read addr = some m)
    (hcid : msgChatId m = some cid) (hmid : msgIdOf m = some mid) :
    (upsertMessageH h0 st addr).1.read h0.next = some m ∧
    kvGet ((kvGet (upsertMessageH h0 st addr).2.messages cid).getD []) mid
      = some h0.next ∧
    addr ≠ h0.next ∧
    ((upsertMessageH h0 st addr).1.write addr w).read h0.next = some m ∧
    (loadMessageH (upsertMessageH h0 st addr).1 (upsertMessageH h0 st addr).2 cid mid).2
      = some (upsertMessageH h0 st addr).1.next ∧
    (loadMessageH (upsertMessageH h0 st addr).1 (upsertMessageH h0 st addr).2 cid
        mid).1.read (upsertMessageH h0 st addr).1.next = some m ∧
    ((loadMessageH (upsertMessageH h0 st addr).1 (upsertMessageH h0 st addr).2 cid
        mid).1.write (upsertMessageH h0 st addr).1.next w).read h0.next = some m := by
  have hlt : addr < h0.next := Heap.read_lt_next h0 addr m hwf hread
  have hne : addr ≠ h0.next := Nat.ne_of_lt hlt
  have e1 : (upsertMessageH h0 st addr).1 = (h0.alloc (deepCopyObj m)).1 := by
    unfold upsertMessageH
    rw [hread]
    simp [hcid, hmid]
  have e2 : (upsertMessageH h0 st addr).2
      = ⟨kvSet st.messages cid
          (kvSet ((kvGet st.messages cid).getD []) mid h0.next)⟩ := by
    unfold upsertMessageH
    rw [hread]
    simp [hcid, hmid, Heap.alloc]
  have hr1 : (h0.alloc (deepCopyObj m)).1.read h0.next = some (deepCopyObj m) :=
    Heap.read_alloc_self h0 (deepCopyObj m) hwf
  have hwf1 : (h0.alloc (deepCopyObj m)).1.Wf := Heap.alloc_wf h0 (deepCopyObj m) hwf
  have hcne : cid ≠ "" := msgKeyField_ne_empty m "remoteJid" cid hcid
  have hmne : mid ≠ "" := msgKeyField_ne_empty m "id" mid hmid
  have hLoad : loadMessageH (h0.alloc (deepCopyObj m)).1
      (⟨kvSet st.messages cid (kvSet ((kvGet st.messages cid).getD []) mid h0.next)⟩ :
        MsgHeapStore) cid mid
      = (((h0.alloc (deepCopyObj m)).1.alloc (deepCopyObj (deepCopyObj m))).1,
         some (h0.alloc (deepCopyObj m)).1.next) := by
    have hr1u : ({ cells := h0.cells ++ [(h0.next, deepCopyObj m)], next := h0.next + 1 } : Heap).read h0.next = some (deepCopyObj m) := hr1
    simp [loadMessageH, hcne, hmne, kvGet_kvSet_self, hr1u, Heap.alloc]
  have hnn : h0.next ≠ (h0.alloc (deepCopyObj m)).1.next := by
    simp [Heap.alloc]
  refine ⟨?_, ?_, hne, ?_, ?_, ?_, ?_⟩
  · rw [e1]
    exact hr1
  · rw [e2]
    show kvGet ((kvGet (kvSet st.messages cid
        (kvSet ((kvGet st.messages cid).getD []) mid h0.next)) cid).getD []) mid
      = some h0.next
    rw [kvGet_kvSet_self]
    simp only [Option.getD_some]
    exact kvGet_kvSet_self mid h0.next _
  · rw [e1, Heap.read_write_ne _ addr h0.next w (fun hh => hne hh.symm)]
    exact hr1
  · rw [e1, e2, hLoad]
  · rw [e1, e2, hLoad]
    exact Heap.read_alloc_self (h0.alloc (deepCopyObj m)).1 (deepCopyObj (deepCopyObj m)) hwf1
  · rw [e1, e2, hLoad]
    rw [Heap.read_write_ne _ _ _ _ hnn]
    rw [Heap.read_alloc_ne _ _ _ hnn]
    exact hr1

/-- Witness for C10 at concrete inputs: a one-cell heap holding a message,
upserted into the empty cache, then mutated and re-loaded. -/
theorem message_deep_copy_isolation_witness :
    (upsertMessageH { cells := [(0, exMsgFull)], next := 1 } ⟨[]⟩ 0).1.read 1
      = some exMsgFull ∧
    ((upsertMessageH { cells := [(0, exMsgFull)], next := 1 } ⟨[]⟩ 0).1.write 0
        [("text", Json.str "EDITED")]).read 1 = some exMsgFull := by
  have h := message_deep_copy_isolation { cells := [(0, exMsgFull)], next := 1 } ⟨[]⟩ 0
    exMsgFull "chat1" "m1" [("text", Json.str "EDITED")]
    (by intro p hp; rcases List.mem_singleton.mp hp with rfl; decide)
    rfl rfl rfl
  exact ⟨h.1, h.2.2.2.1⟩
